import Mathlib

/-!
Shallow embedding of the Game Boy emulator core: the cartridge loader
(`cartdrige.rs`), the register file (`register.rs`) and the CPU
instruction table with its decode-execute engine (`cpu.rs`).  Machine
integers are modelled as `Nat` with explicit wrap-around (`% 256`,
`% 65536`) where the Rust code uses wrapping or casting semantics; Rust
panics (out-of-bounds indexing, failed header checks, unknown opcodes,
writes to ROM) are modelled as `none`.
-/

/-- Flag bit ZERO (bit 7) of the flag register, from `register.rs`. -/
def Flags.ZERO : Nat := 128

/-- Flag bit SUBTRACTION (bit 6) of the flag register. -/
def Flags.SUBTRACTION : Nat := 64

/-- Flag bit HALFCARRY (bit 5) of the flag register. -/
def Flags.HALFCARRY : Nat := 32

/-- Flag bit CARRY (bit 4) of the flag register. -/
def Flags.CARRY : Nat := 16

/-- bitflags `Flags::set`: set (`b = true`) or clear (`b = false`) the bits
of `mask` in the u8 flag byte `f`. -/
def flagSet (f mask : Nat) (b : Bool) : Nat :=
  if b then f ||| mask else f &&& (255 ^^^ mask)

/-- bitflags `Flags::contains`: `(f & mask) == mask`. -/
def flagContains (f mask : Nat) : Bool :=
  (f &&& mask) == mask

/-- u8 `wrapping_sub`. -/
def wsub8 (a b : Nat) : Nat := (a + 256 - b % 256) % 256

/-- Rust cast `as i8` applied to a u8 value: values at or above 0x80 become
negative two's-complement values. -/
def i8_of_u8 (d : Nat) : Int := if d < 128 then (d : Int) else (d : Int) - 256

/-- The register file of `register.rs`: eight 8-bit registers, the flag
byte, the 16-bit stack pointer and program counter. -/
structure Registers where
  a : Nat
  f : Nat
  b : Nat
  c : Nat
  d : Nat
  e : Nat
  h : Nat
  l : Nat
  sp : Nat
  pc : Nat
deriving DecidableEq

/-- The CPU of `cpu.rs`: a register file plus its cartridge.  The only
cartridge variant in the sources is `RomOnly`, held here as its byte
sequence. -/
structure Cpu where
  registers : Registers
  cartdrige : List Nat
deriving DecidableEq

/-- `RomOnly::read`: direct indexing into the byte sequence; an
out-of-bounds index panics, modelled as `none`. -/
def RomOnly_read (rom : List Nat) (address : Nat) : Option Nat :=
  rom.get? address

/-- `RomOnly::set`: always panics (cannot write to ROM), modelled as
`none`. -/
def RomOnly_set (_rom : List Nat) (_address _value : Nat) : Option (List Nat) :=
  none

/-- Modelled from the spec: `read_word` is called by the CPU (`fetch_word`,
opcode 0xC3) but is absent from the sources; §4.3 of the spec prescribes a
little-endian 16-bit fetch, low byte first. -/
def RomOnly_read_word (rom : List Nat) (address : Nat) : Option Nat :=
  match RomOnly_read rom address, RomOnly_read rom (address + 1) with
  | some lo, some hi => some ((hi % 256) * 256 + lo % 256)
  | _, _ => none

/-- The fixed 48-byte `NINTENDO_LOGO` constant of `cartdrige.rs`. -/
def NINTENDO_LOGO : List Nat :=
  [0xCE, 0xED, 0x66, 0x66, 0xCC, 0x0D, 0x00, 0x0B, 0x03, 0x73, 0x00, 0x83, 0x00, 0x0C,
   0x00, 0x0D, 0x00, 0x08, 0x11, 0x1F, 0x88, 0x89, 0x00, 0x0E, 0xDC, 0xCC, 0x6E, 0xE6,
   0xDD, 0xDD, 0xD9, 0x99, 0xBB, 0xBB, 0x67, 0x63, 0x6E, 0x0E, 0xEC, 0xCC, 0xDD, 0xDC,
   0x99, 0x9F, 0xBB, 0xB9, 0x33, 0x3E]

/-- `Cartdrige::ensure_nintendo_logo`, as a boolean check: every byte at
address `0x104 + i` (`i < 48`) must equal the logo constant; a mismatch or
an out-of-bounds read panics, modelled as `false`. -/
def logo_ok (rom : List Nat) : Bool :=
  (List.range 48).all (fun i => RomOnly_read rom (0x104 + i) == some (NINTENDO_LOGO.getD i 0))

/-- The accumulator computed by `Cartdrige::ensure_header_checksum`:
starting from 0, for each address in `0x134..=0x14C` in ascending order,
`acc = acc.wrapping_sub(byte).wrapping_sub(1)`.  `load` applies this only
after checking `0x150 ≤ rom.length`, under which every read is in
bounds. -/
def checksum_acc (rom : List Nat) : Nat :=
  (List.range' 0x134 25).foldl
    (fun acc i => wsub8 (wsub8 acc ((RomOnly_read rom i).getD 0)) 1) 0

/-- The comparison performed by `Cartdrige::ensure_header_checksum`: the
accumulator must equal the byte stored at address 0x14D. -/
def checksum_ok (rom : List Nat) : Bool :=
  checksum_acc rom == (RomOnly_read rom 0x14D).getD 0

/-- `cartdrige::rom_size`: decode the ROM-size code at header offset 0x148
into an expected byte count; an unrecognized code panics, modelled as
`none`. -/
def rom_size (rom_max : Nat) : Option Nat :=
  if rom_max ≤ 0x08 then some (2 * 16384 * (1 <<< rom_max))
  else if rom_max = 0x52 then some (72 * 16384)
  else if rom_max = 0x53 then some (80 * 16384)
  else if rom_max = 0x54 then some (96 * 16384)
  else none

/-- `cartdrige::load`, modulo file access: takes the ROM bytes directly and
returns the `RomOnly` payload on success, `none` on any of the fatal load
failures (image below 0x150 bytes, unrecognized size code, image longer
than the declared size, unsupported cartridge type, logo mismatch,
checksum mismatch). -/
def load (rom : List Nat) : Option (List Nat) :=
  if rom.length < 0x150 then none
  else
    match rom_size (rom.getD 0x148 0) with
    | none => none
    | some sz =>
      if sz < rom.length then none
      else if rom.getD 0x147 0 = 0 then
        if logo_ok rom then
          if checksum_ok rom then some rom else none
        else none
      else none

/-- `Cpu::fetch`: read the byte at `pc` and advance `pc` by 1 (u16 wrap). -/
def fetch (cpu : Cpu) : Option (Nat × Cpu) :=
  match RomOnly_read cpu.cartdrige cpu.registers.pc with
  | none => none
  | some value =>
    some (value, ⟨{ cpu.registers with pc := (cpu.registers.pc + 1) % 65536 }, cpu.cartdrige⟩)

/-- `Cpu::fetch_word`: read the 16-bit word at `pc` and advance `pc` by 2
(u16 wrap). -/
def fetch_word (cpu : Cpu) : Option (Nat × Cpu) :=
  match RomOnly_read_word cpu.cartdrige cpu.registers.pc with
  | none => none
  | some value =>
    some (value, ⟨{ cpu.registers with pc := (cpu.registers.pc + 2) % 65536 }, cpu.cartdrige⟩)

/-- `Cpu::alu_dec`: wrapping 8-bit decrement plus flag updates, returning
the new flag byte together with the result.  The HALFCARRY update tests
`(value & 0x0F) == 0x0F`, exactly as in the source. -/
def alu_dec (f value : Nat) : Nat × Nat :=
  let result := wsub8 value 1
  let f1 := flagSet f Flags.ZERO (result == 0)
  let f2 := flagSet f1 Flags.SUBTRACTION true
  let f3 := flagSet f2 Flags.HALFCARRY ((value &&& 0x0F) == 0x0F)
  (f3, result)

/-- Effect of opcode 0x00 (NOP): do nothing. -/
def exec_nop (cpu : Cpu) : Option Cpu := some cpu

/-- Effect of opcode 0x10 (STOP 0): do nothing (in particular, the
declared second byte is never fetched). -/
def exec_stop (cpu : Cpu) : Option Cpu := some cpu

/-- Effect of opcode 0x20 (JR NZ,r8): fetch the displacement, and when
ZERO is clear add its i8 sign-extension to the post-operand pc via an
i32 intermediate truncated back to u16. -/
def exec_jr_nz (cpu : Cpu) : Option Cpu :=
  match fetch cpu with
  | none => none
  | some (offset, cpu1) =>
    if flagContains cpu1.registers.f Flags.ZERO then some cpu1
    else
      some ⟨{ cpu1.registers with
                pc := (((cpu1.registers.pc : Int) + i8_of_u8 offset) % 65536).toNat },
            cpu1.cartdrige⟩

/-- Effect of opcode 0x60 (LD H,B): copy b into h and do an extra
`pc += 1` (as the source does, on top of the opcode fetch). -/
def exec_ld_h_b (cpu : Cpu) : Option Cpu :=
  some ⟨{ cpu.registers with
            h := cpu.registers.b
            pc := (cpu.registers.pc + 1) % 65536 }, cpu.cartdrige⟩

/-- Effect of opcode 0x05 (DEC B). -/
def exec_dec_b (cpu : Cpu) : Option Cpu :=
  some ⟨{ cpu.registers with
            f := (alu_dec cpu.registers.f cpu.registers.b).1
            b := (alu_dec cpu.registers.f cpu.registers.b).2 }, cpu.cartdrige⟩

/-- Effect of opcode 0x06 (LD B,d8). -/
def exec_ld_b_d8 (cpu : Cpu) : Option Cpu :=
  match fetch cpu with
  | none => none
  | some (value, cpu1) => some ⟨{ cpu1.registers with b := value }, cpu1.cartdrige⟩

/-- Effect of opcode 0x0D (DEC C). -/
def exec_dec_c (cpu : Cpu) : Option Cpu :=
  some ⟨{ cpu.registers with
            f := (alu_dec cpu.registers.f cpu.registers.c).1
            c := (alu_dec cpu.registers.f cpu.registers.c).2 }, cpu.cartdrige⟩

/-- Effect of opcode 0x0E (LD C,d8). -/
def exec_ld_c_d8 (cpu : Cpu) : Option Cpu :=
  match fetch cpu with
  | none => none
  | some (value, cpu1) => some ⟨{ cpu1.registers with c := value }, cpu1.cartdrige⟩

/-- Effect of opcode 0x21 (LD HL,d16): fetch a word into h (high) and l
(low). -/
def exec_ld_hl_d16 (cpu : Cpu) : Option Cpu :=
  match fetch_word cpu with
  | none => none
  | some (word, cpu1) =>
    some ⟨{ cpu1.registers with
              h := (word >>> 8) % 256
              l := word % 256 }, cpu1.cartdrige⟩

/-- Effect of opcode 0x2F (CPL): complement a, set SUBTRACTION and
HALFCARRY, and do an extra `pc += 1` (as the source does). -/
def exec_cpl (cpu : Cpu) : Option Cpu :=
  some ⟨{ cpu.registers with
            a := (cpu.registers.a % 256) ^^^ 255
            f := flagSet (flagSet cpu.registers.f Flags.SUBTRACTION true) Flags.HALFCARRY true
            pc := (cpu.registers.pc + 1) % 65536 }, cpu.cartdrige⟩

/-- Effect of opcode 0x32 (LD (HL-),A): write a at hl (which always
panics on a ROM-only cartridge), then decrement hl. -/
def exec_ld_hld_a (cpu : Cpu) : Option Cpu :=
  match RomOnly_set cpu.cartdrige
      ((cpu.registers.h % 256) * 256 + cpu.registers.l % 256) cpu.registers.a with
  | none => none
  | some cart2 =>
    if (cpu.registers.h % 256) * 256 + cpu.registers.l % 256 = 0 then none
    else
      some ⟨{ cpu.registers with
                h := (((cpu.registers.h % 256) * 256 + cpu.registers.l % 256 - 1) >>> 8) % 256
                l := ((cpu.registers.h % 256) * 256 + cpu.registers.l % 256 - 1) % 256 },
            cart2⟩

/-- Effect of opcode 0x3E (LD A,d8). -/
def exec_ld_a_d8 (cpu : Cpu) : Option Cpu :=
  match fetch cpu with
  | none => none
  | some (value, cpu1) => some ⟨{ cpu1.registers with a := value }, cpu1.cartdrige⟩

/-- Effect of opcode 0xAF (XOR A, A). -/
def exec_xor_a_a (cpu : Cpu) : Option Cpu :=
  some ⟨{ cpu.registers with
            a := cpu.registers.a ^^^ cpu.registers.a
            f := flagSet (flagSet (flagSet (flagSet cpu.registers.f Flags.ZERO true)
              Flags.SUBTRACTION false) Flags.HALFCARRY false) Flags.CARRY false },
        cpu.cartdrige⟩

/-- Effect of opcode 0xC3 (JP a16): read the word at pc (without
advancing) and overwrite pc with it. -/
def exec_jp_a16 (cpu : Cpu) : Option Cpu :=
  match RomOnly_read_word cpu.cartdrige cpu.registers.pc with
  | none => none
  | some word => some ⟨{ cpu.registers with pc := word }, cpu.cartdrige⟩

/-- The `INSTRUCTION_MAP` dispatch: opcode to execution effect; an opcode
absent from the table makes `step` panic, modelled as `none`. -/
def execute (opcode : Nat) (cpu : Cpu) : Option Cpu :=
  if opcode = 0x00 then exec_nop cpu
  else if opcode = 0x10 then exec_stop cpu
  else if opcode = 0x20 then exec_jr_nz cpu
  else if opcode = 0x60 then exec_ld_h_b cpu
  else if opcode = 0x05 then exec_dec_b cpu
  else if opcode = 0x06 then exec_ld_b_d8 cpu
  else if opcode = 0x0D then exec_dec_c cpu
  else if opcode = 0x0E then exec_ld_c_d8 cpu
  else if opcode = 0x21 then exec_ld_hl_d16 cpu
  else if opcode = 0x2F then exec_cpl cpu
  else if opcode = 0x32 then exec_ld_hld_a cpu
  else if opcode = 0x3E then exec_ld_a_d8 cpu
  else if opcode = 0xAF then exec_xor_a_a cpu
  else if opcode = 0xC3 then exec_jp_a16 cpu
  else none

/-- The declared `length` field of each `INSTRUCTION_MAP` entry. -/
def instr_length (opcode : Nat) : Option Nat :=
  if opcode = 0x00 then some 1
  else if opcode = 0x10 then some 2
  else if opcode = 0x20 then some 2
  else if opcode = 0x60 then some 1
  else if opcode = 0x05 then some 1
  else if opcode = 0x06 then some 2
  else if opcode = 0x0D then some 1
  else if opcode = 0x0E then some 2
  else if opcode = 0x21 then some 3
  else if opcode = 0x2F then some 1
  else if opcode = 0x32 then some 1
  else if opcode = 0x3E then some 2
  else if opcode = 0xAF then some 1
  else if opcode = 0xC3 then some 3
  else none

/-- `Cpu::new`: DMG power-up register values. -/
def Cpu.new (cartdrige : List Nat) : Cpu :=
  ⟨{ a := 0x01, f := Flags.ZERO, b := 0x00, c := 0x13, d := 0, e := 0xD8,
     h := 0x01, l := 0x4D, sp := 0xFFFE, pc := 0x0100 }, cartdrige⟩

/-- `Cpu::step`: fetch the opcode (advancing `pc` by 1) and run the matched
instruction's effect; an unknown opcode or a failing memory access panics,
modelled as `none`. -/
def step (cpu : Cpu) : Option Cpu :=
  match fetch cpu with
  | none => none
  | some (opcode, cpu1) => execute opcode cpu1

set_option maxRecDepth 40000

/-- A minimal well-formed cartridge image: 0x150 bytes, the Nintendo logo
at 0x104..0x133, cartridge type 0x00 at 0x147, ROM-size code 0x00 at
0x148, and the matching header checksum 0xE7 (= 231) at 0x14D; every
other byte is zero. -/
def goodRom : List Nat :=
  (List.range 0x150).map (fun i =>
    if 0x104 ≤ i ∧ i < 0x134 then NINTENDO_LOGO.getD (i - 0x104) 0
    else if i = 0x14D then 231 else 0)

/-- Register file used by concrete execution tests: the power-up values
with the program counter moved to 0. -/
def regs0 : Registers :=
  ⟨0x01, 0x80, 0x00, 0x13, 0x00, 0xD8, 0x01, 0x4D, 0xFFFE, 0⟩

/-- C8: at construction the register file holds exactly the power-up
values a=0x01, flags=0x80 (ZERO only, low nibble clear), b=0x00, c=0x13,
d=0x00, e=0xD8, h=0x01, l=0x4D, sp=0xFFFE, pc=0x0100. -/
theorem C8_power_up_defaults (rom : List Nat) :
    (Cpu.new rom).registers =
      ⟨0x01, 0x80, 0x00, 0x13, 0x00, 0xD8, 0x01, 0x4D, 0xFFFE, 0x0100⟩ := rfl

/-- C3 counterexample: the claim maps size code 0x00 to `65536 << 0`
bytes, but the code decodes it to 32768 bytes. -/
theorem C3_rom_size_counterexample : rom_size 0x00 ≠ some (65536 <<< 0x00) := by decide

/-- C3 (amended): each size code in 0x00..=0x08 decodes to `32768 << code`
bytes, codes 0x52/0x53/0x54 decode to 72/80/96 × 16384 bytes, and every
other code fails. -/
theorem C3_rom_size_decode (code : Nat) :
    (code ≤ 0x08 → rom_size code = some (32768 <<< code)) ∧
    rom_size 0x52 = some (72 * 16384) ∧
    rom_size 0x53 = some (80 * 16384) ∧
    rom_size 0x54 = some (96 * 16384) ∧
    (0x08 < code → code ≠ 0x52 → code ≠ 0x53 → code ≠ 0x54 → rom_size code = none) := by
  refine ⟨fun hc => ?_, by decide, by decide, by decide, fun h1 h2 h3 h4 => ?_⟩
  · unfold rom_size
    rw [if_pos hc]
    have : 2 * 16384 * (1 <<< code) = 32768 <<< code := by
      rw [Nat.shiftLeft_eq, Nat.shiftLeft_eq]
      ring
    rw [this]
  · unfold rom_size
    rw [if_neg (by omega), if_neg h2, if_neg h3, if_neg h4]

/-- C3 witness: the amended decode theorem applied at codes 3 and 0x99. -/
theorem C3_rom_size_decode_witness :
    rom_size 3 = some (32768 <<< 3) ∧ rom_size 0x99 = none :=
  ⟨(C3_rom_size_decode 3).1 (by decide),
   (C3_rom_size_decode 0x99).2.2.2.2 (by decide) (by decide) (by decide) (by decide)⟩

/-- C2: evaluating `alu_dec` at the failing input 0x00 (opcode 0x05 with
b = 0x00).  The result and the ZERO/SUBTRACTION flags agree with the
claim, but the code leaves HALFCARRY clear — it tests
`(value & 0x0F) == 0x0F` where the claim (and the code's own comment,
"check if the lower 4 bits are 0") requires `(value & 0x0F) == 0x00`. -/
theorem C2_dec_halfcarry_bug :
    (alu_dec 0x80 0x00).2 = 0xFF ∧
    flagContains (alu_dec 0x80 0x00).1 Flags.ZERO = false ∧
    flagContains (alu_dec 0x80 0x00).1 Flags.SUBTRACTION = true ∧
    flagContains (alu_dec 0x80 0x00).1 Flags.HALFCARRY = false ∧
    (∀ v, v < 256 → (flagContains (alu_dec 0x80 v).1 Flags.HALFCARRY =
      ((v &&& 0x0F) == 0x0F))) := by
  refine ⟨by decide, by decide, by decide, by decide, by decide⟩

/-- C1: three table entries break the program-counter discipline.  With
the power-up registers at pc = 0: opcode 0x60 (LD H,B, declared length 1)
leaves pc = 2 and opcode 0x2F (CPL, declared length 1) leaves pc = 2,
because their effects perform an extra `pc += 1` on top of the opcode
fetch; opcode 0x10 (STOP 0, declared length 2) leaves pc = 1 because its
effect never fetches the operand byte. -/
theorem C1_pc_discipline_bug :
    (instr_length 0x60 = some 1 ∧
      step ⟨regs0, [0x60]⟩ =
        some ⟨⟨0x01, 0x80, 0x00, 0x13, 0x00, 0xD8, 0x00, 0x4D, 0xFFFE, 2⟩, [0x60]⟩) ∧
    (instr_length 0x2F = some 1 ∧
      step ⟨regs0, [0x2F]⟩ =
        some ⟨⟨0xFE, 0xE0, 0x00, 0x13, 0x00, 0xD8, 0x01, 0x4D, 0xFFFE, 2⟩, [0x2F]⟩) ∧
    (instr_length 0x10 = some 2 ∧
      step ⟨regs0, [0x10, 0x00]⟩ =
        some ⟨⟨0x01, 0x80, 0x00, 0x13, 0x00, 0xD8, 0x01, 0x4D, 0xFFFE, 1⟩, [0x10, 0x00]⟩) := by
  refine ⟨⟨by decide, by decide⟩, ⟨by decide, by decide⟩, ⟨by decide, by decide⟩⟩

/-- C10: the ROM-only read is partial at its public interface: a 16-bit
address below the image length returns the stored byte, an address at or
beyond the image length fails fatally instead of returning a byte. -/
theorem C10_read_bounds (rom : List Nat) (address : Nat) (h16 : address < 65536) :
    (address < rom.length → RomOnly_read rom address = some (rom.getD address 0)) ∧
    (rom.length ≤ address → RomOnly_read rom address = none) := by
  constructor
  · intro hlt
    unfold RomOnly_read
    rw [List.getD_eq_get?]
    cases hx : rom.get? address with
    | none => exact absurd (List.get?_eq_none.mp hx) (by omega)
    | some v => rfl
  · intro hge
    unfold RomOnly_read
    exact List.get?_eq_none.mpr hge

/-- C10 witness: on the minimal good image (length 0x150) address 0x133
reads the last logo byte while address 0x150 fails. -/
theorem C10_read_bounds_witness :
    RomOnly_read goodRom 0x133 = some (goodRom.getD 0x133 0) ∧
    RomOnly_read goodRom 0x150 = none :=
  ⟨(C10_read_bounds goodRom 0x133 (by decide)).1 (by decide),
   (C10_read_bounds goodRom 0x150 (by decide)).2 (by decide)⟩

/-- Helper: a successful `load` hands back exactly the byte sequence it
was given — the `RomOnly` payload is the input image itself. -/
theorem load_returns_input (img rom : List Nat) (h : load img = some rom) : rom = img := by
  unfold load at h
  repeat first
    | exact (Option.some.inj h).symm
    | split at h
    | cases h

/-- C7: on the ROM-only variant every write fails fatally at every address
and value, and every read of an offset backed by the loaded image returns
the byte originally present at that offset in the image given to `load`,
unchanged since construction. -/
theorem C7_rom_only_contract (img rom : List Nat) (h : load img = some rom) :
    (∀ address value, RomOnly_set rom address value = none) ∧
    (∀ address, address < img.length →
      RomOnly_read rom address = some (img.getD address 0)) := by
  obtain rfl : rom = img := load_returns_input img rom h
  refine ⟨fun _ _ => rfl, fun address hlt => ?_⟩
  unfold RomOnly_read
  rw [List.getD_eq_get?]
  cases hx : rom.get? address with
  | none => exact absurd (List.get?_eq_none.mp hx) (by omega)
  | some v => rfl

/-- C7 witness: on the minimal good image, a write at address 3 fails and
a read at 0x104 returns the first logo byte 0xCE. -/
theorem C7_rom_only_contract_witness :
    RomOnly_set goodRom 3 7 = none ∧ RomOnly_read goodRom 0x104 = some 0xCE := by
  have h := C7_rom_only_contract goodRom goodRom (by decide)
  refine ⟨h.1 3 7, ?_⟩
  rw [h.2 0x104 (by decide)]
  decide

/-- C4: with E the size decoded from the code at offset 0x148, loading
fails for images shorter than 0x150 bytes, fails for images longer than
E, and succeeds for every length in 0x150..E when the type byte, logo and
checksum are valid — no lower bound beyond 0x150 is enforced against E. -/
theorem C4_load_length_bounds (rom : List Nat) (E : Nat)
    (hE : rom_size (rom.getD 0x148 0) = some E) :
    (rom.length < 0x150 → load rom = none) ∧
    (E < rom.length → load rom = none) ∧
    (0x150 ≤ rom.length → rom.length ≤ E → rom.getD 0x147 0 = 0 →
      logo_ok rom = true → checksum_ok rom = true → load rom = some rom) := by
  unfold load
  rw [hE]
  refine ⟨fun h1 => ?_, fun h2 => ?_, fun h3 h4 h5 h6 h7 => ?_⟩
  · simp [h1]
  · by_cases hl : rom.length < 0x150
    · simp [hl]
    · simp [hl, h2]
  · have hn1 : ¬ rom.length < 0x150 := by omega
    have hn2 : ¬ E < rom.length := by omega
    rw [List.getD_eq_getElem?_getD] at h5
    simp [hn1, hn2, h5, h6, h7]

/-- C4 witness: the minimal good image (length 0x150, declared size
32768, valid type, logo and checksum) loads, and an all-zero image of
length 0x100 is rejected for being below the 0x150 floor. -/
theorem C4_load_length_bounds_witness :
    load goodRom = some goodRom ∧ load (List.replicate 0x100 0) = none :=
  ⟨(C4_load_length_bounds goodRom 32768 (by decide)).2.2
      (by decide) (by decide) (by decide) (by decide) (by decide),
   (C4_load_length_bounds (List.replicate 0x100 0) 32768 (by decide)).1 (by decide)⟩

/-- C5: under a valid length, size, type byte and logo, the load succeeds
iff the checksum accumulator — 0 decremented by `byte + 1` with 8-bit
wrap for each address in 0x134..0x14C in ascending order — equals the
byte stored at address 0x14D. -/
theorem C5_header_checksum (rom : List Nat) (E : Nat)
    (hlen : 0x150 ≤ rom.length) (hE : rom_size (rom.getD 0x148 0) = some E)
    (hsz : rom.length ≤ E) (htype : rom.getD 0x147 0 = 0) (hlogo : logo_ok rom = true) :
    (load rom).isSome = true ↔ checksum_acc rom = (RomOnly_read rom 0x14D).getD 0 := by
  have hn1 : ¬ rom.length < 0x150 := by omega
  have hn2 : ¬ E < rom.length := by omega
  unfold load
  rw [hE]
  rw [List.getD_eq_getElem?_getD] at htype
  by_cases hc : checksum_acc rom = (RomOnly_read rom 0x14D).getD 0
  · simp [hn1, hn2, htype, hlogo, checksum_ok, hc]
  · simp [hn1, hn2, htype, hlogo, checksum_ok, hc]

/-- C5 witness: the minimal good image loads (its accumulator 0xE7 equals
the stored checksum byte), and flipping the stored checksum byte at
0x14D to 0x18 makes the load fail. -/
theorem C5_header_checksum_witness :
    (load goodRom).isSome = true ∧ (load (goodRom.set 0x14D 0x18)).isSome = false := by
  constructor
  · exact (C5_header_checksum goodRom 32768 (by decide) (by decide) (by decide)
      (by decide) (by decide)).mpr (by decide)
  · have h := C5_header_checksum (goodRom.set 0x14D 0x18) 32768 (by decide) (by decide)
      (by decide) (by decide) (by decide)
    cases hq : (load (goodRom.set 0x14D 0x18)).isSome
    · rfl
    · exact absurd (h.mp hq) (by decide)

/-- C6: opcode 0x20 (JR NZ,r8) at pc = p with displacement byte d: with
ZERO set one step leaves pc = p + 2 (the instruction length) regardless
of d and changes nothing else; with ZERO clear it leaves pc equal to the
post-operand position p + 2 plus the sign-extension of d (mod 2^16). -/
theorem C6_jr_nz (regs : Registers) (rom : List Nat) (d : Nat)
    (hpc : regs.pc + 2 < 65536) (hd8 : d < 256)
    (hop : RomOnly_read rom regs.pc = some 0x20)
    (hd : RomOnly_read rom (regs.pc + 1) = some d) :
    (flagContains regs.f Flags.ZERO = true →
      step ⟨regs, rom⟩ = some ⟨{ regs with pc := regs.pc + 2 }, rom⟩) ∧
    (flagContains regs.f Flags.ZERO = false →
      step ⟨regs, rom⟩ =
        some ⟨{ regs with pc := (((regs.pc : Int) + 2 + i8_of_u8 d) % 65536).toNat }, rom⟩) := by
  have h1 : (regs.pc + 1) % 65536 = regs.pc + 1 := Nat.mod_eq_of_lt (by omega)
  have h2 : (regs.pc + 1 + 1) % 65536 = regs.pc + 2 := Nat.mod_eq_of_lt (by omega)
  have hfetch : fetch ⟨regs, rom⟩ = some (0x20, ⟨{ regs with pc := regs.pc + 1 }, rom⟩) := by
    simp [fetch, hop, h1]
  have hfetch2 : fetch ⟨{ regs with pc := regs.pc + 1 }, rom⟩ =
      some (d, ⟨{ regs with pc := regs.pc + 2 }, rom⟩) := by
    simp [fetch, hd, h2]
  constructor <;> intro hz
  · simp [step, hfetch, execute, exec_jr_nz, hfetch2, hz]
  · simp [step, hfetch, execute, exec_jr_nz, hfetch2, hz, i8_of_u8]

/-- C6 witness: JR NZ with displacement 0xFE (−2) from pc = 0: with ZERO
set the step lands on pc = 2; with ZERO clear it lands back on pc = 0
(= 2 + (−2)). -/
theorem C6_jr_nz_witness :
    step ⟨⟨1, 0x80, 0, 0x13, 0, 0xD8, 1, 0x4D, 0xFFFE, 0⟩, [0x20, 0xFE]⟩ =
      some ⟨⟨1, 0x80, 0, 0x13, 0, 0xD8, 1, 0x4D, 0xFFFE, 2⟩, [0x20, 0xFE]⟩ ∧
    step ⟨⟨1, 0, 0, 0x13, 0, 0xD8, 1, 0x4D, 0xFFFE, 0⟩, [0x20, 0xFE]⟩ =
      some ⟨⟨1, 0, 0, 0x13, 0, 0xD8, 1, 0x4D, 0xFFFE, 0⟩, [0x20, 0xFE]⟩ := by
  constructor
  · have h := (C6_jr_nz ⟨1, 0x80, 0, 0x13, 0, 0xD8, 1, 0x4D, 0xFFFE, 0⟩ [0x20, 0xFE] 0xFE
      (by decide) (by decide) (by decide) (by decide)).1 (by decide)
    simpa using h
  · have h := (C6_jr_nz ⟨1, 0, 0, 0x13, 0, 0xD8, 1, 0x4D, 0xFFFE, 0⟩ [0x20, 0xFE] 0xFE
      (by decide) (by decide) (by decide) (by decide)).2 (by decide)
    simpa [i8_of_u8] using h

/-- Helper: an or of two bytes with clear low nibbles has a clear low
nibble. -/
theorem and15_or (f m : Nat) (hf : f &&& 15 = 0) (hm : m &&& 15 = 0) :
    (f ||| m) &&& 15 = 0 := by
  apply Nat.eq_of_testBit_eq
  intro i
  have hfi := congrArg (fun n => n.testBit i) hf
  have hmi := congrArg (fun n => n.testBit i) hm
  simp only [Nat.testBit_and, Nat.testBit_or, Nat.zero_testBit] at hfi hmi ⊢
  cases hb : Nat.testBit 15 i <;> simp_all

/-- Helper: masking a byte with a clear low nibble keeps it clear. -/
theorem and15_and (f m : Nat) (hf : f &&& 15 = 0) : (f &&& m) &&& 15 = 0 := by
  apply Nat.eq_of_testBit_eq
  intro i
  have hfi := congrArg (fun n => n.testBit i) hf
  simp only [Nat.testBit_and, Nat.zero_testBit] at hfi ⊢
  cases hb : Nat.testBit 15 i <;> cases hc : Nat.testBit f i <;> simp_all

/-- Helper: `Flags::set` with any of the four flag masks (any mask with a
clear low nibble) preserves a clear low nibble. -/
theorem flagSet_and15 (f m : Nat) (b : Bool) (hf : f &&& 15 = 0) (hm : m &&& 15 = 0) :
    flagSet f m b &&& 15 = 0 := by
  cases b
  · exact and15_and f (255 ^^^ m) hf
  · exact and15_or f m hf hm

/-- Helper: the flag byte produced by `alu_dec` has a clear low nibble
whenever the incoming one does. -/
theorem alu_dec_and15 (f v : Nat) (hf : f &&& 15 = 0) : (alu_dec f v).1 &&& 15 = 0 := by
  unfold alu_dec
  dsimp only
  exact flagSet_and15 _ _ _ (flagSet_and15 _ _ _ (flagSet_and15 _ _ _ hf (by decide))
    (by decide)) (by decide)

/-- Helper: `fetch` never touches the flag byte. -/
theorem fetch_f (cpu : Cpu) (v : Nat) (c1 : Cpu) (h : fetch cpu = some (v, c1)) :
    c1.registers.f = cpu.registers.f := by
  unfold fetch at h
  rcases hr : RomOnly_read cpu.cartdrige cpu.registers.pc with _ | w <;> rw [hr] at h
  · cases h
  · cases h
    rfl

/-- Helper: `fetch_word` never touches the flag byte. -/
theorem fetch_word_f (cpu : Cpu) (v : Nat) (c1 : Cpu) (h : fetch_word cpu = some (v, c1)) :
    c1.registers.f = cpu.registers.f := by
  unfold fetch_word at h
  rcases hr : RomOnly_read_word cpu.cartdrige cpu.registers.pc with _ | w <;> rw [hr] at h
  · cases h
  · cases h
    rfl

/-- Helper: JR NZ preserves a clear flag low nibble. -/
theorem exec_jr_nz_and15 (c c2 : Cpu) (hf : c.registers.f &&& 15 = 0)
    (h : exec_jr_nz c = some c2) : c2.registers.f &&& 15 = 0 := by
  unfold exec_jr_nz at h
  rcases hfe : fetch c with _ | ⟨d, c1⟩ <;> rw [hfe] at h
  · cases h
  · have hf1 : c1.registers.f = c.registers.f := fetch_f c d c1 hfe
    dsimp only at h
    split_ifs at h <;> cases h
    · exact hf1 ▸ hf
    · simpa [hf1] using hf

/-- Helper: LD B,d8 preserves a clear flag low nibble. -/
theorem exec_ld_b_d8_and15 (c c2 : Cpu) (hf : c.registers.f &&& 15 = 0)
    (h : exec_ld_b_d8 c = some c2) : c2.registers.f &&& 15 = 0 := by
  unfold exec_ld_b_d8 at h
  rcases hfe : fetch c with _ | ⟨d, c1⟩ <;> rw [hfe] at h
  · cases h
  · cases h; simpa [fetch_f c d c1 hfe] using hf

/-- Helper: LD C,d8 preserves a clear flag low nibble. -/
theorem exec_ld_c_d8_and15 (c c2 : Cpu) (hf : c.registers.f &&& 15 = 0)
    (h : exec_ld_c_d8 c = some c2) : c2.registers.f &&& 15 = 0 := by
  unfold exec_ld_c_d8 at h
  rcases hfe : fetch c with _ | ⟨d, c1⟩ <;> rw [hfe] at h
  · cases h
  · cases h; simpa [fetch_f c d c1 hfe] using hf

/-- Helper: LD A,d8 preserves a clear flag low nibble. -/
theorem exec_ld_a_d8_and15 (c c2 : Cpu) (hf : c.registers.f &&& 15 = 0)
    (h : exec_ld_a_d8 c = some c2) : c2.registers.f &&& 15 = 0 := by
  unfold exec_ld_a_d8 at h
  rcases hfe : fetch c with _ | ⟨d, c1⟩ <;> rw [hfe] at h
  · cases h
  · cases h; simpa [fetch_f c d c1 hfe] using hf

/-- Helper: LD HL,d16 preserves a clear flag low nibble. -/
theorem exec_ld_hl_d16_and15 (c c2 : Cpu) (hf : c.registers.f &&& 15 = 0)
    (h : exec_ld_hl_d16 c = some c2) : c2.registers.f &&& 15 = 0 := by
  unfold exec_ld_hl_d16 at h
  rcases hfe : fetch_word c with _ | ⟨d, c1⟩ <;> rw [hfe] at h
  · cases h
  · cases h; simpa [fetch_word_f c d c1 hfe] using hf

/-- Helper: JP a16 preserves a clear flag low nibble. -/
theorem exec_jp_a16_and15 (c c2 : Cpu) (hf : c.registers.f &&& 15 = 0)
    (h : exec_jp_a16 c = some c2) : c2.registers.f &&& 15 = 0 := by
  unfold exec_jp_a16 at h
  rcases hrw : RomOnly_read_word c.cartdrige c.registers.pc with _ | w <;> rw [hrw] at h
  · cases h
  · cases h; simpa using hf

/-- Helper: every implemented instruction effect preserves a clear flag
low nibble, by case analysis over the whole instruction table. -/
theorem execute_and15 (op : Nat) (c c2 : Cpu) (hf : c.registers.f &&& 15 = 0)
    (h : execute op c = some c2) : c2.registers.f &&& 15 = 0 := by
  unfold execute at h
  by_cases e1 : op = 0x00
  · rw [if_pos e1] at h; unfold exec_nop at h; cases h; exact hf
  rw [if_neg e1] at h
  by_cases e2 : op = 0x10
  · rw [if_pos e2] at h; unfold exec_stop at h; cases h; exact hf
  rw [if_neg e2] at h
  by_cases e3 : op = 0x20
  · rw [if_pos e3] at h; exact exec_jr_nz_and15 c c2 hf h
  rw [if_neg e3] at h
  by_cases e4 : op = 0x60
  · rw [if_pos e4] at h; unfold exec_ld_h_b at h; cases h; simpa using hf
  rw [if_neg e4] at h
  by_cases e5 : op = 0x05
  · rw [if_pos e5] at h; unfold exec_dec_b at h; cases h
    simpa using alu_dec_and15 _ _ hf
  rw [if_neg e5] at h
  by_cases e6 : op = 0x06
  · rw [if_pos e6] at h; exact exec_ld_b_d8_and15 c c2 hf h
  rw [if_neg e6] at h
  by_cases e7 : op = 0x0D
  · rw [if_pos e7] at h; unfold exec_dec_c at h; cases h
    simpa using alu_dec_and15 _ _ hf
  rw [if_neg e7] at h
  by_cases e8 : op = 0x0E
  · rw [if_pos e8] at h; exact exec_ld_c_d8_and15 c c2 hf h
  rw [if_neg e8] at h
  by_cases e9 : op = 0x21
  · rw [if_pos e9] at h; exact exec_ld_hl_d16_and15 c c2 hf h
  rw [if_neg e9] at h
  by_cases e10 : op = 0x2F
  · rw [if_pos e10] at h; unfold exec_cpl at h; cases h
    simpa using flagSet_and15 _ _ _ (flagSet_and15 _ _ _ hf (by decide)) (by decide)
  rw [if_neg e10] at h
  by_cases e11 : op = 0x32
  · rw [if_pos e11] at h; unfold exec_ld_hld_a RomOnly_set at h; cases h
  rw [if_neg e11] at h
  by_cases e12 : op = 0x3E
  · rw [if_pos e12] at h; exact exec_ld_a_d8_and15 c c2 hf h
  rw [if_neg e12] at h
  by_cases e13 : op = 0xAF
  · rw [if_pos e13] at h; unfold exec_xor_a_a at h; cases h
    simpa using flagSet_and15 _ _ _ (flagSet_and15 _ _ _ (flagSet_and15 _ _ _
      (flagSet_and15 _ _ _ hf (by decide)) (by decide)) (by decide)) (by decide)
  rw [if_neg e13] at h
  by_cases e14 : op = 0xC3
  · rw [if_pos e14] at h; exact exec_jp_a16_and15 c c2 hf h
  rw [if_neg e14] at h
  cases h

/-- C9: the low nibble of the flag byte is zero at power-up and remains
zero after every successful step: no instruction effect ever disturbs
bits 3..0. -/
theorem C9_flag_low_nibble (rom : List Nat) (cpu cpu2 : Cpu)
    (hf : cpu.registers.f &&& 15 = 0) (hstep : step cpu = some cpu2) :
    (Cpu.new rom).registers.f &&& 15 = 0 ∧ cpu2.registers.f &&& 15 = 0 := by
  constructor
  · show (128 : Nat) &&& 15 = 0
    decide
  · unfold step at hstep
    rcases hfe : fetch cpu with _ | ⟨op, c1⟩ <;> rw [hfe] at hstep
    · cases hstep
    · exact execute_and15 op c1 cpu2 (by rw [fetch_f cpu op c1 hfe]; exact hf) hstep

/-- C9 witness: the invariant theorem applied at the power-up flags and at
a concrete DEC B step from pc = 0 on ROM [0x05]. -/
theorem C9_flag_low_nibble_witness :
    (Cpu.new []).registers.f &&& 15 = 0 ∧
    (⟨⟨1, 64, 255, 0x13, 0, 0xD8, 1, 0x4D, 0xFFFE, 1⟩, [0x05]⟩ : Cpu).registers.f &&& 15 = 0 :=
  C9_flag_low_nibble [] ⟨⟨1, 128, 0, 0x13, 0, 0xD8, 1, 0x4D, 0xFFFE, 0⟩, [0x05]⟩
    ⟨⟨1, 64, 255, 0x13, 0, 0xD8, 1, 0x4D, 0xFFFE, 1⟩, [0x05]⟩ (by decide) (by decide)
